import Mathlib

/-!
Verification development for the contract storage-deposit meter
(`frame/contracts/src/storage/meter.rs`).

The Rust module is embedded shallowly: balances (`BalanceOf<T>`, a `u128`)
become `Nat` with explicit saturation at `2^128 - 1`, the `u32` counters of
`Diff` saturate at `2^32 - 1`, and the in-place mutation of `ContractInfo`
and of the meter is made explicit by returning the updated values.  Calls
into the charging backend (`Ext::charge`) are recorded as an explicit trace
of `BackendCall`s.
-/

namespace StorageMeter

/-- Maximum value of a `u32` counter. -/
def U32MAX : Nat := 2 ^ 32 - 1

/-- Maximum value of a `u128` balance. -/
def U128MAX : Nat := 2 ^ 128 - 1

/-- `u32::saturating_add`. -/
def satAdd32 (a b : Nat) : Nat := if a + b ≤ U32MAX then a + b else U32MAX

/-- `u128::saturating_add`. -/
def satAdd128 (a b : Nat) : Nat := if a + b ≤ U128MAX then a + b else U128MAX

/-- `u128::saturating_mul`. -/
def satMul128 (a b : Nat) : Nat := if a * b ≤ U128MAX then a * b else U128MAX

/-- The accuracy of `FixedU128`: `10^18`. -/
def FIXED_ACC : Nat := 10 ^ 18

/-- Modelled from the spec: `FixedU128::checked_from_rational` (the
fixed-point type lives in `sp_arithmetic`, outside `src/`).  Division by
zero yields `none` (the source then applies `unwrap_or_default`); an inner
value that does not fit a `u128` also yields `none`.  The inner value is
the floor of `n * 10^18 / d`. -/
def checkedFromRational (n d : Nat) : Option Nat :=
  if d = 0 then none
  else if n * FIXED_ACC / d ≤ U128MAX then some (n * FIXED_ACC / d)
  else none

/-- Modelled from the spec: `FixedU128::saturating_mul_int` on an inner
fixed-point value `inner` and a `u128` integer, rounding down. -/
def satMulInt (inner int : Nat) : Nat :=
  if inner * int / FIXED_ACC ≤ U128MAX then inner * int / FIXED_ACC else U128MAX

/-- Modelled from the spec: a `Deposit` is a signed monetary obligation,
either a `Charge` (owed by an account) or a `Refund` (owed to an account).
The concrete type `StorageDeposit` lives in `pallet_contracts_primitives`,
outside `src/`; the spec fixes its two tags and that a zero amount is
representable in either tag. -/
inductive Deposit where
  | Refund (amount : Nat)
  | Charge (amount : Nat)
deriving DecidableEq, Repr

namespace Deposit

/-- Modelled from the spec: adding a `Charge` and a `Refund` nets them
(larger absorbs smaller, sign follows the larger), saturating on
overflow. -/
def saturating_add (a b : Deposit) : Deposit :=
  match a, b with
  | Charge l, Charge r => Charge (satAdd128 l r)
  | Refund l, Refund r => Refund (satAdd128 l r)
  | Charge l, Refund r => if r ≤ l then Charge (l - r) else Refund (r - l)
  | Refund l, Charge r => if r < l then Refund (l - r) else Charge (r - l)

/-- Modelled from the spec: a zero amount in either tag is a no-op. -/
def is_zero (a : Deposit) : Bool :=
  match a with
  | Charge n => n = 0
  | Refund n => n = 0

/-- Modelled from the spec: the amount if the deposit is a `Charge`,
otherwise zero. -/
def charge_or_zero (a : Deposit) : Nat :=
  match a with
  | Charge n => n
  | Refund _ => 0

/-- The amount if the deposit is a `Refund`, otherwise zero (used to state
claims about refunds). -/
def refund_or_zero (a : Deposit) : Nat :=
  match a with
  | Charge _ => 0
  | Refund n => n

/-- Modelled from the spec: how much of `limit` is still available given
that this deposit was already incurred (`limit − deposit`, saturating,
floored at zero: a refund frees balance, a charge consumes it). -/
def available (a : Deposit) (limit : Nat) : Nat :=
  match a with
  | Charge n => limit - n
  | Refund n => satAdd128 n limit

/-- `true` iff the deposit is tagged `Refund`. -/
def isRefund (a : Deposit) : Bool :=
  match a with
  | Refund _ => true
  | Charge _ => false

/-- `true` iff the deposit is tagged `Charge`. -/
def isCharge (a : Deposit) : Bool :=
  match a with
  | Refund _ => false
  | Charge _ => true

/-- Modelled from the spec: the larger of two deposits under the derived
order (`Refund` below `Charge`, amounts compared within a tag); used to
raise an instantiation charge to at least the minimum existence amount. -/
def dle (a b : Deposit) : Bool :=
  match a, b with
  | Refund l, Refund r => l ≤ r
  | Refund _, Charge _ => true
  | Charge _, Refund _ => false
  | Charge l, Charge r => l ≤ r

/-- Modelled from the spec: `Ord::max` on deposits. -/
def dmax (a b : Deposit) : Deposit := if dle a b then b else a

/-- The signed value of a deposit: charges count positive, refunds
negative. -/
def signedValue (a : Deposit) : Int :=
  match a with
  | Charge n => (n : Int)
  | Refund n => -(n : Int)

end Deposit

/-- Modelled from the spec: the per-account Storage Record
(`ContractInfo`, defined outside `src/`): the stored footprint and the
deposits already charged against it. -/
structure ContractInfo where
  storage_bytes : Nat
  storage_items : Nat
  storage_byte_deposit : Nat
  storage_item_deposit : Nat
  storage_base_deposit : Nat
deriving DecidableEq, Repr

/-- Modelled from the spec: the entire deposit recorded for the account —
base deposit plus byte and item deposits (saturating). -/
def ContractInfo.total_deposit (info : ContractInfo) : Nat :=
  satAdd128 (satAdd128 info.storage_base_deposit info.storage_byte_deposit)
    info.storage_item_deposit

/-- External price and existence configuration: `T::DepositPerByte`,
`T::DepositPerItem` and `Pallet::min_balance`. -/
structure Config where
  per_byte : Nat
  per_item : Nat
  min_balance : Nat
deriving DecidableEq, Repr

/-- This type is used to describe a storage change when charging from the
meter (all four counters are `u32`). -/
structure Diff where
  bytes_added : Nat
  bytes_removed : Nat
  items_added : Nat
  items_removed : Nat
deriving DecidableEq, Repr

/-- The all-zero diff, `Diff::default()`. -/
def zeroDiff : Diff := ⟨0, 0, 0, 0⟩

/-- `Diff::saturating_add`: field-wise saturating addition. -/
def Diff.saturating_add (a b : Diff) : Diff :=
  { bytes_added := satAdd32 a.bytes_added b.bytes_added
    bytes_removed := satAdd32 a.bytes_removed b.bytes_removed
    items_added := satAdd32 a.items_added b.items_added
    items_removed := satAdd32 a.items_removed b.items_removed }

/-- The pro-rata refund computed by `Diff::update_contract` for one
dimension: `min(1, removed / stored)` (a `FixedU128` ratio, zero when
`stored = 0`) times the currently recorded deposit. -/
def prorataRefund (removed stored dep : Nat) : Nat :=
  satMulInt (min ((checkedFromRational removed stored).getD 0) FIXED_ACC) dep

/-- `Diff::update_contract`: convert the diff into a deposit, updating the
supplied contract info in place (here: returning the updated info).
Without contract info only additive deltas are meaningful and a plain
charge is computed. -/
def Diff.update_contract (cfg : Config) (self : Diff) (info : Option ContractInfo) :
    Deposit × Option ContractInfo :=
  let bytes_added := self.bytes_added - self.bytes_removed
  let items_added := self.items_added - self.items_removed
  let bytes_deposit := Deposit.Charge (satMul128 cfg.per_byte bytes_added)
  let items_deposit := Deposit.Charge (satMul128 cfg.per_item items_added)
  match info with
  | none => (bytes_deposit.saturating_add items_deposit, none)
  | some info =>
    let bytes_removed := self.bytes_removed - self.bytes_added
    let items_removed := self.items_removed - self.items_added
    let bytes_deposit := bytes_deposit.saturating_add
      (Deposit.Refund (prorataRefund bytes_removed info.storage_bytes info.storage_byte_deposit))
    let items_deposit := items_deposit.saturating_add
      (Deposit.Refund (prorataRefund items_removed info.storage_items info.storage_item_deposit))
    let info := { info with
      storage_bytes := satAdd32 info.storage_bytes bytes_added - bytes_removed
      storage_items := satAdd32 info.storage_items items_added - items_removed }
    let info :=
      match bytes_deposit with
      | Deposit.Charge amount =>
        { info with storage_byte_deposit := satAdd128 info.storage_byte_deposit amount }
      | Deposit.Refund amount =>
        { info with storage_byte_deposit := info.storage_byte_deposit - amount }
    let info :=
      match items_deposit with
      | Deposit.Charge amount =>
        { info with storage_item_deposit := satAdd128 info.storage_item_deposit amount }
      | Deposit.Refund amount =>
        { info with storage_item_deposit := info.storage_item_deposit - amount }
    (bytes_deposit.saturating_add items_deposit, some info)

/-- Records the storage changes of a storage meter. -/
inductive Contribution where
  | Alive (diff : Diff)
  | Checked (deposit : Deposit)
  | Terminated (deposit : Deposit)
deriving DecidableEq, Repr

/-- `Contribution::update_contract`: see `Diff.update_contract`; an already
finalized contribution returns its deposit and leaves the info alone. -/
def Contribution.update_contract (cfg : Config) (c : Contribution)
    (info : Option ContractInfo) : Deposit × Option ContractInfo :=
  match c with
  | Contribution.Alive diff => diff.update_contract cfg info
  | Contribution.Checked deposit => (deposit, info)
  | Contribution.Terminated deposit => (deposit, info)

/-- A deferred ledger entry (`Charge` in the source): a contract account,
the net deposit to settle with it, and whether it was terminated. -/
structure ChargeRec where
  contract : Nat
  amount : Deposit
  terminated : Bool
deriving DecidableEq, Repr

/-- One recorded invocation of the charging backend (`Ext::charge`). -/
structure BackendCall where
  origin : Nat
  contract : Nat
  amount : Deposit
  terminated : Bool
deriving DecidableEq, Repr

/-- The dispatch errors raised by the meter. -/
inductive DispatchError where
  | StorageDepositLimitExhausted
  | StorageDepositNotEnoughFunds
deriving DecidableEq, Repr

/-- The storage meter (`RawMeter`); the root/nested distinction is a
phantom type in the source and does not change the representation. -/
structure RawMeter where
  limit : Nat
  total_deposit : Deposit
  own_contribution : Contribution
  charges : List ChargeRec
deriving DecidableEq, Repr

namespace RawMeter

/-- `RawMeter::is_alive`. -/
def is_alive (m : RawMeter) : Bool :=
  match m.own_contribution with
  | Contribution.Alive _ => true
  | _ => false

/-- `RawMeter::is_terminated`. -/
def is_terminated (m : RawMeter) : Bool :=
  match m.own_contribution with
  | Contribution.Terminated _ => true
  | _ => false

/-- `RawMeter::available`: what is left of the original limit. -/
def available (m : RawMeter) : Nat :=
  m.total_deposit.available m.limit

/-- `RawMeter::nested`: a child meter whose limit is whatever is left of
the parent's, with default (empty) contribution and ledger. -/
def nested (m : RawMeter) : RawMeter :=
  { limit := m.available
    total_deposit := Deposit.Charge 0
    own_contribution := Contribution.Alive zeroDiff
    charges := [] }

/-- `RawMeter::charge`: accumulate a diff into an alive meter's own
contribution (the source asserts aliveness; after finalization the panic
branch is modelled as the identity). -/
def charge (m : RawMeter) (diff : Diff) : RawMeter :=
  match m.own_contribution with
  | Contribution.Alive own =>
    { m with own_contribution := Contribution.Alive (own.saturating_add diff) }
  | _ => m

/-- `RawMeter::terminate`: refund the whole deposit recorded in the
contract info. -/
def terminate (m : RawMeter) (info : ContractInfo) : RawMeter :=
  { m with own_contribution :=
      Contribution.Terminated (Deposit.Refund info.total_deposit) }

/-- `RawMeter::absorb`: settle the child's own contribution, fold it and
the child's total into the parent's total, and append the child's ledger
plus one fresh entry when the settled amount is non-zero. -/
def absorb (cfg : Config) (m : RawMeter) (absorbed : RawMeter) (contract : Nat)
    (info : Option ContractInfo) : RawMeter × Option ContractInfo :=
  let s := absorbed.own_contribution.update_contract cfg info
  let own_deposit := s.1
  let total := (m.total_deposit.saturating_add absorbed.total_deposit).saturating_add own_deposit
  let charges :=
    if own_deposit.is_zero then m.charges
    else m.charges ++ absorbed.charges ++
      [{ contract := contract, amount := own_deposit, terminated := absorbed.is_terminated }]
  ({ m with total_deposit := total, charges := charges }, s.2)

/-- `RawMeter::enforce_limit`: settle the own contribution, transition an
alive meter to `Checked`, and fail iff the candidate total is a charge
exceeding the limit.  Returns the updated meter, the updated info and the
error, if any. -/
def enforce_limit (cfg : Config) (m : RawMeter) (info : Option ContractInfo) :
    RawMeter × Option ContractInfo × Option DispatchError :=
  let s := m.own_contribution.update_contract cfg info
  let deposit := s.1
  let total_deposit := m.total_deposit.saturating_add deposit
  let m' := if m.is_alive then { m with own_contribution := Contribution.Checked deposit } else m
  match total_deposit with
  | Deposit.Charge amount =>
    if m.limit < amount then (m', s.2, some DispatchError.StorageDepositLimitExhausted)
    else (m', s.2, none)
  | Deposit.Refund _ => (m', s.2, none)

/-- `RawMeter::charge_instantiate`: deposit for the new account's initial
footprint, raised to at least the minimum balance, settled immediately.
`encSize` is the encoded size of the contract info (modelled from the
spec: the SCALE codec lives outside `src/`).  Returns the updated meter,
the updated info, the backend-call trace and the error, if any;
`total_deposit` is overwritten on success. -/
def charge_instantiate (cfg : Config) (m : RawMeter) (origin contract : Nat)
    (info : ContractInfo) (encSize : Nat) :
    RawMeter × ContractInfo × List BackendCall × Option DispatchError :=
  let deposit0 :=
    (Diff.update_contract cfg
      { bytes_added := encSize, bytes_removed := 0, items_added := 1, items_removed := 0 }
      none).1
  let deposit := deposit0.dmax (Deposit.Charge cfg.min_balance)
  if m.limit < deposit.charge_or_zero then
    (m, info, [], some DispatchError.StorageDepositLimitExhausted)
  else
    let m' := { m with total_deposit := deposit }
    let info' := { info with storage_base_deposit := deposit.charge_or_zero }
    let calls :=
      if deposit.is_zero then []
      else [{ origin := origin, contract := contract, amount := deposit, terminated := false }]
    (m', info', calls, none)

end RawMeter

/-- The backend call `Ext::charge(origin, contract, amount, terminated)`
that settles one ledger entry. -/
def toBackendCall (origin : Nat) (c : ChargeRec) : BackendCall :=
  { origin := origin, contract := c.contract, amount := c.amount,
    terminated := c.terminated }

/-- `RawMeter::into_deposit`: drain the ledger through the backend, all
refunds first, then all charges, and return the accumulated total. -/
def RawMeter.into_deposit (m : RawMeter) (origin : Nat) : List BackendCall × Deposit :=
  ((m.charges.filter (fun c => c.amount.isRefund)).map (toBackendCall origin) ++
    (m.charges.filter (fun c => c.amount.isCharge)).map (toBackendCall origin),
   m.total_deposit)

/-- Apply a sequence of diffs to a meter via repeated `RawMeter.charge`. -/
def chargeList (m : RawMeter) (l : List Diff) : RawMeter :=
  l.foldl RawMeter.charge m

/-- Well-formedness of a `Diff`: all four counters fit a `u32` (guaranteed
by the source's types). -/
def DiffWF (d : Diff) : Prop :=
  d.bytes_added ≤ U32MAX ∧ d.bytes_removed ≤ U32MAX ∧
    d.items_added ≤ U32MAX ∧ d.items_removed ≤ U32MAX

instance (d : Diff) : Decidable (DiffWF d) := by
  unfold DiffWF
  infer_instance


/-! ## Theorems -/

/-- C2: `enforce_limit` fails with a limit-exceeded error if and only if
the candidate total — the meter's `total_deposit` plus its settled own
contribution — is a `Charge` whose amount strictly exceeds the meter's
limit; a candidate total exactly equal to the limit, or any candidate
total that is a `Refund`, succeeds. -/
theorem enforce_limit_exceeded_iff (cfg : Config) (m : RawMeter) (info : Option ContractInfo) :
    (RawMeter.enforce_limit cfg m info).2.2 = some DispatchError.StorageDepositLimitExhausted ↔
      ∃ a, m.total_deposit.saturating_add (m.own_contribution.update_contract cfg info).1 =
        Deposit.Charge a ∧ m.limit < a := by
  unfold RawMeter.enforce_limit
  rcases h : m.total_deposit.saturating_add (m.own_contribution.update_contract cfg info).1
    with a | a <;> simp only [h]
  · simp
  · by_cases hlt : m.limit < a
    · simp [hlt]
    · simp [hlt]

/-- C4: for every alive meter and every Storage Record, `terminate` sets
the meter's own contribution to `Terminated (Refund record.total_deposit)`
— the entire deposit recorded for that account — and the result is always
a `Refund`, never a `Charge`, regardless of any prior `charge` calls on
that meter. -/
theorem terminate_full_refund (m : RawMeter) (l : List Diff) (info : ContractInfo)
    (halive : m.is_alive = true) :
    ((chargeList m l).terminate info).own_contribution =
      Contribution.Terminated (Deposit.Refund info.total_deposit) ∧
    ∀ a, ((chargeList m l).terminate info).own_contribution ≠
      Contribution.Terminated (Deposit.Charge a) := by
  constructor
  · rfl
  · intro a h
    exact absurd h (by simp [RawMeter.terminate])

/-- C4 witness: a concrete alive meter charged twice and then terminated. -/
theorem terminate_full_refund_witness :
    (({ limit := 7, total_deposit := Deposit.Charge 0,
        own_contribution := Contribution.Alive zeroDiff,
        charges := [] : RawMeter }).is_alive = true) ∧
    ((chargeList
        { limit := 7, total_deposit := Deposit.Charge 0,
          own_contribution := Contribution.Alive zeroDiff, charges := [] }
        [⟨1, 2, 3, 4⟩, ⟨5, 0, 0, 1⟩]).terminate ⟨10, 2, 30, 4, 5⟩).own_contribution =
      Contribution.Terminated (Deposit.Refund (ContractInfo.total_deposit ⟨10, 2, 30, 4, 5⟩)) :=
  ⟨rfl,
    (terminate_full_refund
      { limit := 7, total_deposit := Deposit.Charge 0,
        own_contribution := Contribution.Alive zeroDiff, charges := [] }
      [⟨1, 2, 3, 4⟩, ⟨5, 0, 0, 1⟩] ⟨10, 2, 30, 4, 5⟩ rfl).1⟩

/-- C5: `absorb` adds the child's `total_deposit` and its settled own
contribution into the parent's `total_deposit` (saturating), and appends
the child's entire ledger followed by one new entry
`{account, settled amount, child-terminated flag}` exactly when the
settled own contribution is non-zero; a zero settlement leaves the
parent's ledger untouched. -/
theorem absorb_spec (cfg : Config) (m child : RawMeter) (contract : Nat)
    (info : Option ContractInfo) :
    ((RawMeter.absorb cfg m child contract info).1.total_deposit =
      (m.total_deposit.saturating_add child.total_deposit).saturating_add
        (child.own_contribution.update_contract cfg info).1) ∧
    ((RawMeter.absorb cfg m child contract info).1.charges =
      if (child.own_contribution.update_contract cfg info).1.is_zero then m.charges
      else m.charges ++ child.charges ++
        [{ contract := contract,
           amount := (child.own_contribution.update_contract cfg info).1,
           terminated := child.is_terminated }]) ∧
    ((RawMeter.absorb cfg m child contract info).1.charges = m.charges ↔
      (child.own_contribution.update_contract cfg info).1.is_zero = true) := by
  refine ⟨rfl, rfl, ?_⟩
  unfold RawMeter.absorb
  by_cases hz : (child.own_contribution.update_contract cfg info).1.is_zero
  · simp [hz]
  · simp only [hz, Bool.false_eq_true, if_false, iff_false]
    intro h
    have hlen := congrArg List.length h
    simp [List.length_append] at hlen

/-- C8: for every alive meter with a `u128` limit, `nested` creates a
child meter whose limit is the parent's limit minus the parent's (signed)
`total_deposit`, saturating at the `u128` maximum and floored at 0, with
an empty own contribution (`Alive` of the all-zero `Diff`) and an empty
charge ledger. -/
theorem nested_spec (m : RawMeter) (halive : m.is_alive = true) (hlim : m.limit ≤ U128MAX) :
    (((m.nested).limit : Int) =
      max 0 (min ((m.limit : Int) - m.total_deposit.signedValue) ((U128MAX : Nat) : Int))) ∧
    (m.nested).own_contribution = Contribution.Alive zeroDiff ∧
    (m.nested).charges = [] ∧
    (m.nested).limit = m.available := by
  refine ⟨?_, rfl, rfl, rfl⟩
  rcases hd : m.total_deposit with a | a
  · simp only [RawMeter.nested, RawMeter.available, hd, Deposit.available, Deposit.signedValue,
      satAdd128]
    split_ifs with h
    · push_cast
      omega
    · have hmax : (0 : Nat) ≤ U128MAX := Nat.zero_le _
      push_cast
      omega
  · simp only [RawMeter.nested, RawMeter.available, hd, Deposit.available, Deposit.signedValue]
    push_cast
    omega

/-- C8 witness: a concrete alive meter with a refund as total deposit. -/
theorem nested_spec_witness :
    (({ limit := 50, total_deposit := Deposit.Refund 8,
        own_contribution := Contribution.Alive zeroDiff,
        charges := [⟨9, Deposit.Charge 1, false⟩] : RawMeter }).is_alive = true) ∧
    (50 ≤ U128MAX) ∧
    ({ limit := 50, total_deposit := Deposit.Refund 8,
       own_contribution := Contribution.Alive zeroDiff,
       charges := [⟨9, Deposit.Charge 1, false⟩] : RawMeter }).nested.limit = 58 := by
  refine ⟨rfl, by decide, ?_⟩
  have h := (nested_spec
    { limit := 50, total_deposit := Deposit.Refund 8,
      own_contribution := Contribution.Alive zeroDiff,
      charges := [⟨9, Deposit.Charge 1, false⟩] } rfl (by decide)).2.2.2
  simpa [RawMeter.available, Deposit.available, satAdd128, U128MAX] using h

/-- C6: `charge_instantiate` computes the deposit for the new account's
initial footprint (a pure-addition diff of the encoded contract info plus
one item, settled without a record), raises it to at least the configured
minimum existence amount, and fails with a limit-exceeded error iff the
resulting charge exceeds the meter's limit; on success it overwrites the
meter's `total_deposit` with it (leaving `own_contribution` untouched),
stamps the record's base deposit, and emits exactly one immediate backend
settlement unless the deposit is zero. -/
theorem charge_instantiate_spec (cfg : Config) (m : RawMeter) (origin contract : Nat)
    (info : ContractInfo) (encSize : Nat) :
    let deposit := ((Diff.update_contract cfg ⟨encSize, 0, 1, 0⟩ none).1).dmax
      (Deposit.Charge cfg.min_balance)
    let r := RawMeter.charge_instantiate cfg m origin contract info encSize
    (cfg.min_balance ≤ deposit.charge_or_zero) ∧
    (r.2.2.2 = if m.limit < deposit.charge_or_zero
      then some DispatchError.StorageDepositLimitExhausted else none) ∧
    (r.1.total_deposit =
      if m.limit < deposit.charge_or_zero then m.total_deposit else deposit) ∧
    (r.1.own_contribution = m.own_contribution) ∧
    (r.1.limit = m.limit) ∧
    (r.2.1.storage_base_deposit =
      if m.limit < deposit.charge_or_zero then info.storage_base_deposit
      else deposit.charge_or_zero) ∧
    (r.2.2.1 =
      if m.limit < deposit.charge_or_zero then []
      else if deposit.is_zero then []
      else [{ origin := origin, contract := contract, amount := deposit,
              terminated := false }]) := by
  refine ⟨?_, ?_, ?_, ?_, ?_, ?_, ?_⟩
  · show cfg.min_balance ≤ Deposit.charge_or_zero _
    have h0 : (Diff.update_contract cfg ⟨encSize, 0, 1, 0⟩ none).1 =
        Deposit.Charge (satAdd128 (satMul128 cfg.per_byte encSize)
          (satMul128 cfg.per_item 1)) := rfl
    rw [h0]
    unfold Deposit.dmax Deposit.dle
    split_ifs with h
    · simp [Deposit.charge_or_zero]
    · simp only [Deposit.charge_or_zero]
      simp only [decide_eq_true_eq] at h
      omega
  all_goals
    simp only [RawMeter.charge_instantiate]
    split_ifs <;> rfl

/-- C7 counterexample: `charge_instantiate` — an operation other than
`absorb` — changes the meter's `total_deposit` (from `Charge 0` to
`Charge 5`, the minimum balance), and `absorb`ing a child whose settled
contribution is a refund strictly decreases the parent's signed
`total_deposit` (from `Charge 10` to `Charge 5`). -/
theorem total_deposit_only_absorb_cex :
    ((RawMeter.charge_instantiate ⟨0, 0, 5⟩
        { limit := 100, total_deposit := Deposit.Charge 0,
          own_contribution := Contribution.Alive zeroDiff, charges := [] } 1 2
        ⟨0, 0, 0, 0, 0⟩ 0).1.total_deposit ≠ Deposit.Charge 0) ∧
    (RawMeter.absorb ⟨0, 0, 5⟩
        { limit := 0, total_deposit := Deposit.Charge 10,
          own_contribution := Contribution.Alive zeroDiff, charges := [] }
        { limit := 0, total_deposit := Deposit.Charge 0,
          own_contribution := Contribution.Terminated (Deposit.Refund 5), charges := [] }
        7 none).1.total_deposit.signedValue < (Deposit.Charge 10).signedValue := by
  constructor
  · decide
  · decide

/-- C7 amended: a meter's `total_deposit` is changed only by `absorb` and
`charge_instantiate`: `charge`, `terminate`, `enforce_limit` and
`into_deposit` leave it unchanged, a fresh child starts at `Charge 0`,
`absorb` folds in the child's `total_deposit` and settled contribution
(saturating; a net refund can lower it), and `charge_instantiate`
overwrites it with the instantiation deposit on success. -/
theorem total_deposit_mutators (cfg : Config) (m child : RawMeter) (d : Diff)
    (info : Option ContractInfo) (info2 : ContractInfo) (origin contract encSize : Nat) :
    ((RawMeter.charge m d).total_deposit = m.total_deposit) ∧
    ((RawMeter.terminate m info2).total_deposit = m.total_deposit) ∧
    ((RawMeter.enforce_limit cfg m info).1.total_deposit = m.total_deposit) ∧
    ((RawMeter.into_deposit m origin).2 = m.total_deposit) ∧
    ((m.nested).total_deposit = Deposit.Charge 0) ∧
    ((RawMeter.absorb cfg m child contract info).1.total_deposit =
      (m.total_deposit.saturating_add child.total_deposit).saturating_add
        (child.own_contribution.update_contract cfg info).1) ∧
    ((RawMeter.charge_instantiate cfg m origin contract info2 encSize).1.total_deposit =
      if m.limit < (((Diff.update_contract cfg ⟨encSize, 0, 1, 0⟩ none).1).dmax
          (Deposit.Charge cfg.min_balance)).charge_or_zero
      then m.total_deposit
      else ((Diff.update_contract cfg ⟨encSize, 0, 1, 0⟩ none).1).dmax
        (Deposit.Charge cfg.min_balance)) := by
  refine ⟨?_, rfl, ?_, rfl, rfl, rfl, ?_⟩
  · cases h : m.own_contribution <;> simp [RawMeter.charge, h]
  · simp only [RawMeter.enforce_limit]
    split <;> split_ifs <;> rfl
  · simp only [RawMeter.charge_instantiate]
    split_ifs <;> rfl

/-- `isCharge` is the negation of `isRefund`. -/
theorem isCharge_eq_not_isRefund (d : Deposit) : d.isCharge = !d.isRefund := by
  cases d <;> rfl

/-- C1: `into_deposit` invokes the charging backend exactly once per
ledger entry — the emitted call trace is a permutation of the ledger —
with every `Refund` entry settled before any `Charge` entry regardless of
insertion order, every call directed from the root's origin, and the
meter's `total_deposit` returned. -/
theorem into_deposit_spec (m : RawMeter) (origin : Nat) :
    ((RawMeter.into_deposit m origin).2 = m.total_deposit) ∧
    (∃ rs cs, (RawMeter.into_deposit m origin).1 = rs ++ cs ∧
      (∀ c ∈ rs, c.amount.isRefund = true) ∧
      (∀ c ∈ cs, c.amount.isCharge = true) ∧
      List.Perm (rs ++ cs) (m.charges.map (toBackendCall origin))) ∧
    (∀ c ∈ (RawMeter.into_deposit m origin).1, c.origin = origin) := by
  refine ⟨rfl, ?_, ?_⟩
  · refine ⟨(m.charges.filter (fun c : ChargeRec => c.amount.isRefund)).map
        (toBackendCall origin),
      (m.charges.filter (fun c : ChargeRec => c.amount.isCharge)).map (toBackendCall origin),
      rfl, ?_, ?_, ?_⟩
    · intro c hc
      rcases List.mem_map.1 hc with ⟨e, he, rfl⟩
      exact (List.mem_filter.1 he).2
    · intro c hc
      rcases List.mem_map.1 hc with ⟨e, he, rfl⟩
      exact (List.mem_filter.1 he).2
    · rw [← List.map_append]
      apply List.Perm.map
      have h1 : m.charges.filter (fun c => c.amount.isCharge) =
          m.charges.filter (fun c => !(c.amount.isRefund)) := by
        apply List.filter_congr
        intro c _
        rw [isCharge_eq_not_isRefund]
      rw [h1]
      exact List.filter_append_perm _ _
  · intro c hc
    rcases List.mem_append.1 hc with h | h <;>
      rcases List.mem_map.1 h with ⟨e, _, rfl⟩ <;> rfl

/-- C10: when `enforce_limit` is called on an alive meter and reports the
limit-exceeded error, the meter's own contribution has nevertheless
already transitioned to `Checked` of the settled deposit, and the supplied
Storage Record has already been replaced by the settled record — the error
does not roll either back. -/
theorem enforce_limit_error_mutates (cfg : Config) (m : RawMeter) (d0 : Diff)
    (info : ContractInfo)
    (halive : m.own_contribution = Contribution.Alive d0)
    (herr : (RawMeter.enforce_limit cfg m (some info)).2.2 =
      some DispatchError.StorageDepositLimitExhausted) :
    ((RawMeter.enforce_limit cfg m (some info)).1.own_contribution =
      Contribution.Checked (d0.update_contract cfg (some info)).1) ∧
    ((RawMeter.enforce_limit cfg m (some info)).2.1 =
      (d0.update_contract cfg (some info)).2) ∧
    ((RawMeter.enforce_limit cfg m (some info)).1.own_contribution ≠
      m.own_contribution) := by
  have hisalive : m.is_alive = true := by simp [RawMeter.is_alive, halive]
  refine ⟨?_, ?_, ?_⟩ <;>
    · simp only [RawMeter.enforce_limit, halive, Contribution.update_contract, hisalive,
        if_true]
      split <;> (try split_ifs) <;> simp [halive]

/-- C10 witness: a meter whose single pending byte blows a zero limit. -/
theorem enforce_limit_error_mutates_witness :
    (({ limit := 0, total_deposit := Deposit.Charge 0,
        own_contribution := Contribution.Alive ⟨1, 0, 0, 0⟩,
        charges := [] : RawMeter }).own_contribution = Contribution.Alive ⟨1, 0, 0, 0⟩) ∧
    ((RawMeter.enforce_limit ⟨1, 1, 0⟩
        { limit := 0, total_deposit := Deposit.Charge 0,
          own_contribution := Contribution.Alive ⟨1, 0, 0, 0⟩, charges := [] }
        (some ⟨0, 0, 0, 0, 0⟩)).2.2 = some DispatchError.StorageDepositLimitExhausted) ∧
    ((RawMeter.enforce_limit ⟨1, 1, 0⟩
        { limit := 0, total_deposit := Deposit.Charge 0,
          own_contribution := Contribution.Alive ⟨1, 0, 0, 0⟩, charges := [] }
        (some ⟨0, 0, 0, 0, 0⟩)).1.own_contribution ≠
      ({ limit := 0, total_deposit := Deposit.Charge 0,
         own_contribution := Contribution.Alive ⟨1, 0, 0, 0⟩,
         charges := [] : RawMeter }).own_contribution) :=
  ⟨rfl, by decide,
    (enforce_limit_error_mutates ⟨1, 1, 0⟩
      { limit := 0, total_deposit := Deposit.Charge 0,
        own_contribution := Contribution.Alive ⟨1, 0, 0, 0⟩, charges := [] }
      ⟨1, 0, 0, 0⟩ ⟨0, 0, 0, 0, 0⟩ rfl (by decide)).2.2⟩

/-- `satAdd32` is commutative. -/
theorem satAdd32_comm (a b : Nat) : satAdd32 a b = satAdd32 b a := by
  unfold satAdd32
  split_ifs <;> omega

/-- `satAdd32` is associative. -/
theorem satAdd32_assoc (a b c : Nat) :
    satAdd32 (satAdd32 a b) c = satAdd32 a (satAdd32 b c) := by
  unfold satAdd32
  split_ifs <;> omega

/-- `satAdd32` never exceeds the `u32` bound. -/
theorem satAdd32_le (a b : Nat) : satAdd32 a b ≤ U32MAX := by
  unfold satAdd32
  split_ifs <;> omega

/-- `Diff.saturating_add` is right-commutative. -/
theorem Diff.saturating_add_right_comm (a b c : Diff) :
    (a.saturating_add b).saturating_add c = (a.saturating_add c).saturating_add b := by
  simp only [Diff.saturating_add, satAdd32_assoc]
  rw [satAdd32_comm b.bytes_added, satAdd32_comm b.bytes_removed,
    satAdd32_comm b.items_added, satAdd32_comm b.items_removed]

/-- `Diff.saturating_add` is associative. -/
theorem Diff.saturating_add_assoc (a b c : Diff) :
    (a.saturating_add b).saturating_add c = a.saturating_add (b.saturating_add c) := by
  simp only [Diff.saturating_add, satAdd32_assoc]

/-- The result of `Diff.saturating_add` is always well-formed. -/
theorem Diff.saturating_add_wf (a b : Diff) : DiffWF (a.saturating_add b) :=
  ⟨satAdd32_le _ _, satAdd32_le _ _, satAdd32_le _ _, satAdd32_le _ _⟩

/-- A well-formed diff absorbs the zero diff on the right. -/
theorem Diff.saturating_add_zero (d : Diff) (h : DiffWF d) :
    d.saturating_add zeroDiff = d := by
  obtain ⟨h1, h2, h3, h4⟩ := h
  simp only [Diff.saturating_add, zeroDiff, satAdd32]
  cases d
  simp_all

/-- A well-formed diff absorbs the zero diff on the left. -/
theorem Diff.zero_saturating_add (d : Diff) (h : DiffWF d) :
    zeroDiff.saturating_add d = d := by
  obtain ⟨h1, h2, h3, h4⟩ := h
  simp only [Diff.saturating_add, zeroDiff, satAdd32]
  cases d
  simp_all

/-- Folding `Diff.saturating_add` is invariant under permutation of the
list. -/
theorem foldl_saturating_add_perm {l1 l2 : List Diff} (h : List.Perm l1 l2) :
    ∀ a : Diff, l1.foldl Diff.saturating_add a = l2.foldl Diff.saturating_add a := by
  induction h with
  | nil => intro a; rfl
  | cons x _ ih =>
    intro a
    simp only [List.foldl_cons]
    exact ih _
  | swap x y l =>
    intro a
    simp only [List.foldl_cons]
    rw [Diff.saturating_add_right_comm]
  | trans _ _ ih1 ih2 =>
    intro a
    rw [ih1 a, ih2 a]

/-- Charging a list of diffs into an alive meter folds them into the own
contribution and changes nothing else. -/
theorem chargeList_alive (l : List Diff) :
    ∀ (m : RawMeter) (d0 : Diff), m.own_contribution = Contribution.Alive d0 →
    chargeList m l =
      { m with own_contribution :=
          Contribution.Alive (l.foldl Diff.saturating_add d0) } := by
  induction l with
  | nil =>
    intro m d0 h
    simp only [chargeList, List.foldl_nil]
    cases m
    simp_all
  | cons d t ih =>
    intro m d0 h
    have hstep : chargeList m (d :: t) = chargeList (RawMeter.charge m d) t := rfl
    have hc : RawMeter.charge m d =
        { m with own_contribution := Contribution.Alive (d0.saturating_add d) } := by
      simp [RawMeter.charge, h]
    rw [hstep, ih (RawMeter.charge m d) (d0.saturating_add d) (by rw [hc]), hc]
    simp

/-- Folding from a well-formed start equals the start plus the fold from
zero, provided every element is well-formed. -/
theorem foldl_saturating_add_from_zero (l : List Diff) (hl : ∀ d ∈ l, DiffWF d) :
    ∀ a : Diff, DiffWF a →
      l.foldl Diff.saturating_add a =
        a.saturating_add (l.foldl Diff.saturating_add zeroDiff) := by
  induction l with
  | nil =>
    intro a ha
    simp only [List.foldl_nil]
    exact (Diff.saturating_add_zero a ha).symm
  | cons d t ih =>
    intro a ha
    have hd : DiffWF d := hl d (List.mem_cons_self d t)
    have ht : ∀ e ∈ t, DiffWF e := fun e he => hl e (List.mem_cons_of_mem d he)
    simp only [List.foldl_cons]
    rw [ih ht (a.saturating_add d) (Diff.saturating_add_wf a d),
      ih ht (zeroDiff.saturating_add d) (Diff.saturating_add_wf zeroDiff d),
      Diff.zero_saturating_add d hd, Diff.saturating_add_assoc]

/-- C9: for every alive meter, applying a sequence of well-formed diffs
via repeated `charge` yields the same meter as a single `charge` with the
field-wise saturating sum of the sequence, and the result is identical for
every ordering of the sequence. -/
theorem charge_order_independent (m : RawMeter) (d0 : Diff) (l l2 : List Diff)
    (halive : m.own_contribution = Contribution.Alive d0) (hwf : DiffWF d0)
    (hl : ∀ d ∈ l, DiffWF d) (hperm : List.Perm l l2) :
    chargeList m l = RawMeter.charge m (l.foldl Diff.saturating_add zeroDiff) ∧
    chargeList m l = chargeList m l2 := by
  constructor
  · rw [chargeList_alive l m d0 halive]
    have hc : RawMeter.charge m (l.foldl Diff.saturating_add zeroDiff) =
        { m with own_contribution := (Contribution.Alive
            (d0.saturating_add (l.foldl Diff.saturating_add zeroDiff))) } := by
      simp [RawMeter.charge, halive]
    rw [hc, foldl_saturating_add_from_zero l hl d0 hwf]
  · rw [chargeList_alive l m d0 halive, chargeList_alive l2 m d0 halive,
      foldl_saturating_add_perm hperm d0]

/-- C9 witness: two diffs applied in both orders to a concrete alive
meter. -/
theorem charge_order_independent_witness :
    (({ limit := 9, total_deposit := Deposit.Charge 0,
        own_contribution := Contribution.Alive zeroDiff,
        charges := [] : RawMeter }).own_contribution = Contribution.Alive zeroDiff) ∧
    DiffWF zeroDiff ∧
    List.Perm [(⟨1, 2, 3, 4⟩ : Diff), ⟨5, 6, 7, 8⟩] [⟨5, 6, 7, 8⟩, ⟨1, 2, 3, 4⟩] ∧
    chargeList
      { limit := 9, total_deposit := Deposit.Charge 0,
        own_contribution := Contribution.Alive zeroDiff, charges := [] }
      [⟨1, 2, 3, 4⟩, ⟨5, 6, 7, 8⟩] =
      chargeList
        { limit := 9, total_deposit := Deposit.Charge 0,
          own_contribution := Contribution.Alive zeroDiff, charges := [] }
        [⟨5, 6, 7, 8⟩, ⟨1, 2, 3, 4⟩] :=
  ⟨rfl, by decide, by decide,
    (charge_order_independent
      { limit := 9, total_deposit := Deposit.Charge 0,
        own_contribution := Contribution.Alive zeroDiff, charges := [] }
      zeroDiff [⟨1, 2, 3, 4⟩, ⟨5, 6, 7, 8⟩] [⟨5, 6, 7, 8⟩, ⟨1, 2, 3, 4⟩]
      rfl (by decide) (by decide) (by decide)).2⟩

/-- `FIXED_ACC` is positive. -/
theorem fixed_acc_pos : 0 < FIXED_ACC := by norm_num [FIXED_ACC]

/-- With a positive denominator and a `u32` numerator the fixed-point
ratio is defined and equals the floored rational. -/
theorem checkedFromRational_of_pos (m n : Nat) (hn : 0 < n) (hm : m ≤ U32MAX) :
    checkedFromRational m n = some (m * FIXED_ACC / n) := by
  have h1 : m * FIXED_ACC / n ≤ m * FIXED_ACC := Nat.div_le_self _ _
  have h2 : m * FIXED_ACC ≤ U32MAX * FIXED_ACC := Nat.mul_le_mul_right _ hm
  have h3 : U32MAX * FIXED_ACC ≤ U128MAX := by norm_num [U32MAX, FIXED_ACC, U128MAX]
  unfold checkedFromRational
  rw [if_neg (by omega), if_pos (by omega)]

/-- A record with zero stored units yields a zero pro-rata refund: the
ratio's division by zero defaults to zero. -/
theorem prorataRefund_stored_zero (r D : Nat) : prorataRefund r 0 D = 0 := by
  unfold prorataRefund checkedFromRational satMulInt
  simp

/-- Removing nothing refunds nothing. -/
theorem prorataRefund_removed_zero (N D : Nat) : prorataRefund 0 N D = 0 := by
  rcases Nat.eq_zero_or_pos N with h | h
  · subst h
    exact prorataRefund_stored_zero 0 D
  · unfold prorataRefund satMulInt
    rw [checkedFromRational_of_pos 0 N h (by norm_num [U32MAX])]
    simp

/-- The pro-rata refund never exceeds the recorded deposit. -/
theorem prorataRefund_le (M N D : Nat) : prorataRefund M N D ≤ D := by
  unfold prorataRefund satMulInt
  have h0 : min ((checkedFromRational M N).getD 0) FIXED_ACC ≤ FIXED_ACC :=
    min_le_right _ _
  have h1 : min ((checkedFromRational M N).getD 0) FIXED_ACC * D / FIXED_ACC ≤ D := by
    have h2 : min ((checkedFromRational M N).getD 0) FIXED_ACC * D / FIXED_ACC ≤
        FIXED_ACC * D / FIXED_ACC :=
      Nat.div_le_div_right (Nat.mul_le_mul_right D h0)
    rwa [Nat.mul_div_cancel_left D fixed_acc_pos] at h2
  split_ifs with h
  · exact h1
  · omega

/-- Removing at least as many units as are stored refunds the whole
recorded deposit. -/
theorem prorataRefund_full (M N D : Nat) (hN : 0 < N) (hNM : N ≤ M)
    (hM : M ≤ U32MAX) (hD : D ≤ U128MAX) : prorataRefund M N D = D := by
  unfold prorataRefund
  rw [checkedFromRational_of_pos M N hN hM]
  have hge : FIXED_ACC ≤ M * FIXED_ACC / N := by
    rw [Nat.le_div_iff_mul_le hN]
    calc FIXED_ACC * N = N * FIXED_ACC := Nat.mul_comm _ _
    _ ≤ M * FIXED_ACC := Nat.mul_le_mul_right _ hNM
  simp only [Option.getD_some]
  rw [min_eq_right hge]
  unfold satMulInt
  rw [Nat.mul_div_cancel_left D fixed_acc_pos, if_pos hD]

/-- When strictly fewer units are removed than are stored, the pro-rata
refund is `D * M / N` up to fixed-point rounding: it never exceeds the
exact rational, and undershoots it by less than one unit plus the
fixed-point granularity `D / 10^18`. -/
theorem prorataRefund_bounds (M N D : Nat) (hN : 0 < N) (hMN : M < N)
    (hD : D ≤ U128MAX) :
    prorataRefund M N D * N ≤ M * D ∧
    M * D * FIXED_ACC < (prorataRefund M N D + 1) * FIXED_ACC * N + N * D := by
  have hrholt : M * FIXED_ACC / N < FIXED_ACC := by
    rw [Nat.div_lt_iff_lt_mul hN]
    calc M * FIXED_ACC < N * FIXED_ACC :=
      (Nat.mul_lt_mul_right fixed_acc_pos).mpr hMN
    _ = FIXED_ACC * N := Nat.mul_comm _ _
  have haccmax : FIXED_ACC ≤ U128MAX := by norm_num [FIXED_ACC, U128MAX]
  have hcfr : checkedFromRational M N = some (M * FIXED_ACC / N) := by
    unfold checkedFromRational
    rw [if_neg (by omega), if_pos (by omega)]
  have hrD : M * FIXED_ACC / N * D / FIXED_ACC ≤ D := by
    have h2 : M * FIXED_ACC / N * D / FIXED_ACC ≤ FIXED_ACC * D / FIXED_ACC :=
      Nat.div_le_div_right (Nat.mul_le_mul_right D (le_of_lt hrholt))
    rwa [Nat.mul_div_cancel_left D fixed_acc_pos] at h2
  have hval : prorataRefund M N D = M * FIXED_ACC / N * D / FIXED_ACC := by
    unfold prorataRefund satMulInt
    rw [hcfr]
    simp only [Option.getD_some]
    rw [min_eq_left (le_of_lt hrholt), if_pos (le_trans hrD hD)]
  rw [hval]
  have h1 : M * FIXED_ACC / N * D / FIXED_ACC * FIXED_ACC ≤ M * FIXED_ACC / N * D :=
    Nat.div_mul_le_self _ _
  have h2 : M * FIXED_ACC / N * D <
      (M * FIXED_ACC / N * D / FIXED_ACC + 1) * FIXED_ACC := by
    have hdm := Nat.div_add_mod (M * FIXED_ACC / N * D) FIXED_ACC
    have hmod := Nat.mod_lt (M * FIXED_ACC / N * D) fixed_acc_pos
    nlinarith
  have h3 : M * FIXED_ACC / N * N ≤ M * FIXED_ACC := Nat.div_mul_le_self _ _
  have h4 : M * FIXED_ACC < (M * FIXED_ACC / N + 1) * N := by
    have hdm := Nat.div_add_mod (M * FIXED_ACC) N
    have hmod := Nat.mod_lt (M * FIXED_ACC) hN
    nlinarith
  constructor
  · have e1 : M * FIXED_ACC / N * D / FIXED_ACC * N * FIXED_ACC ≤
        M * D * FIXED_ACC := by nlinarith
    exact Nat.le_of_mul_le_mul_right e1 fixed_acc_pos
  · rcases Nat.eq_zero_or_pos D with hD0 | hD0
    · subst hD0
      have hp : 0 < (M * FIXED_ACC / N * 0 / FIXED_ACC + 1) * FIXED_ACC * N :=
        Nat.mul_pos (Nat.mul_pos (Nat.succ_pos _) fixed_acc_pos) hN
      simpa using hp
    · have e2 : M * FIXED_ACC * D < (M * FIXED_ACC / N + 1) * N * D :=
        (Nat.mul_lt_mul_right hD0).mpr h4
      have e3 : M * FIXED_ACC / N * D * N <
          (M * FIXED_ACC / N * D / FIXED_ACC + 1) * FIXED_ACC * N :=
        (Nat.mul_lt_mul_right hN).mpr h2
      nlinarith

/-- `saturating_mul` by a zero counter is zero. -/
theorem satMul128_zero (x : Nat) : satMul128 x 0 = 0 := by
  unfold satMul128
  simp

/-- Netting a zero charge against a refund, then a zero net charge, keeps
exactly the refund (or a zero charge when the refund is zero). -/
theorem charge0_refund_then_zero (n : Nat) :
    ((Deposit.Charge 0).saturating_add (Deposit.Refund n)).saturating_add
      ((Deposit.Charge 0).saturating_add (Deposit.Refund 0)) =
    if n = 0 then Deposit.Charge 0 else Deposit.Refund n := by
  unfold Deposit.saturating_add satAdd128
  split_ifs <;> simp_all

/-- Symmetric variant: a zero byte effect followed by an item refund. -/
theorem zero_then_charge0_refund (n : Nat) :
    ((Deposit.Charge 0).saturating_add (Deposit.Refund 0)).saturating_add
      ((Deposit.Charge 0).saturating_add (Deposit.Refund n)) =
    if n = 0 then Deposit.Charge 0 else Deposit.Refund n := by
  unfold Deposit.saturating_add satAdd128
  split_ifs <;> simp_all

/-- Settling a byte-removal-dominant diff (net removal `M`, no net item
change) nets to the pro-rata byte refund. -/
theorem update_contract_bytes_removal (cfg : Config) (a i M : Nat) (info : ContractInfo) :
    (Diff.update_contract cfg ⟨a, a + M, i, i⟩ (some info)).1 =
      if prorataRefund M info.storage_bytes info.storage_byte_deposit = 0
      then Deposit.Charge 0
      else Deposit.Refund (prorataRefund M info.storage_bytes info.storage_byte_deposit) := by
  have h1 : a - (a + M) = 0 := by omega
  have h2 : a + M - a = M := by omega
  have h3 : i - i = 0 := by omega
  simp only [Diff.update_contract, h1, h2, h3, satMul128_zero, prorataRefund_removed_zero]
  exact charge0_refund_then_zero _

/-- Settling an item-removal-dominant diff (net removal `M`, no net byte
change) nets to the pro-rata item refund. -/
theorem update_contract_items_removal (cfg : Config) (b j M : Nat) (info : ContractInfo) :
    (Diff.update_contract cfg ⟨b, b, j, j + M⟩ (some info)).1 =
      if prorataRefund M info.storage_items info.storage_item_deposit = 0
      then Deposit.Charge 0
      else Deposit.Refund (prorataRefund M info.storage_items info.storage_item_deposit) := by
  have h1 : b - b = 0 := by omega
  have h2 : j - (j + M) = 0 := by omega
  have h3 : j + M - j = M := by omega
  simp only [Diff.update_contract, h1, h2, h3, satMul128_zero, prorataRefund_removed_zero]
  exact zero_then_charge0_refund _

/-- The refund side of the netted removal deposit. -/
theorem refund_or_zero_of_ite (n : Nat) :
    (if n = 0 then Deposit.Charge 0 else Deposit.Refund n).refund_or_zero = n := by
  split_ifs with h <;> simp [Deposit.refund_or_zero, h]

/-- The charge side of the netted removal deposit is always zero. -/
theorem charge_or_zero_of_ite (n : Nat) :
    (if n = 0 then Deposit.Charge 0 else Deposit.Refund n).charge_or_zero = 0 := by
  split_ifs with h <;> simp [Deposit.charge_or_zero]

/-- C3 amended: settling a removal-dominant diff that removes `M` net
units (bytes or items) against a record with `N` stored units and
recorded deposit `D` yields a pure refund (never a net charge) of exactly
`prorataRefund M N D`, which (i) never exceeds `D`, (ii) equals `D`
whenever `M ≥ N ≥ 1`, (iii) equals `0` when `N = 0` — the division-by-zero
ratio defaults to zero, the one deviation from the claim — and
(iv) equals `D·M/N` within fixed-point rounding when `M < N`. -/
theorem update_contract_refund_cap
    (cfg : Config) (a i b j M N D NI DI : Nat) (info infoI : ContractInfo)
    (hbN : info.storage_bytes = N) (hbD : info.storage_byte_deposit = D)
    (hiN : infoI.storage_items = NI) (hiD : infoI.storage_item_deposit = DI)
    (hM : M ≤ U32MAX) (hD : D ≤ U128MAX) (hDI : DI ≤ U128MAX) :
    ((Diff.update_contract cfg ⟨a, a + M, i, i⟩ (some info)).1.charge_or_zero = 0) ∧
    ((Diff.update_contract cfg ⟨a, a + M, i, i⟩ (some info)).1.refund_or_zero =
      prorataRefund M N D) ∧
    (prorataRefund M N D ≤ D) ∧
    (0 < N → N ≤ M → prorataRefund M N D = D) ∧
    (N = 0 → prorataRefund M N D = 0) ∧
    (M < N → prorataRefund M N D * N ≤ M * D ∧
      M * D * FIXED_ACC < (prorataRefund M N D + 1) * FIXED_ACC * N + N * D) ∧
    ((Diff.update_contract cfg ⟨b, b, j, j + M⟩ (some infoI)).1.charge_or_zero = 0) ∧
    ((Diff.update_contract cfg ⟨b, b, j, j + M⟩ (some infoI)).1.refund_or_zero =
      prorataRefund M NI DI) ∧
    (prorataRefund M NI DI ≤ DI) ∧
    (0 < NI → NI ≤ M → prorataRefund M NI DI = DI) ∧
    (NI = 0 → prorataRefund M NI DI = 0) ∧
    (M < NI → prorataRefund M NI DI * NI ≤ M * DI ∧
      M * DI * FIXED_ACC < (prorataRefund M NI DI + 1) * FIXED_ACC * NI + NI * DI) := by
  subst hbN hbD hiN hiD
  refine ⟨?_, ?_, prorataRefund_le _ _ _, ?_, ?_, ?_, ?_, ?_, prorataRefund_le _ _ _,
    ?_, ?_, ?_⟩
  · rw [update_contract_bytes_removal]
    exact charge_or_zero_of_ite _
  · rw [update_contract_bytes_removal]
    exact refund_or_zero_of_ite _
  · intro hN hNM
    exact prorataRefund_full _ _ _ hN hNM hM hD
  · intro hN
    rw [hN]
    exact prorataRefund_stored_zero _ _
  · intro hMN
    exact prorataRefund_bounds _ _ _ (by omega) hMN hD
  · rw [update_contract_items_removal]
    exact charge_or_zero_of_ite _
  · rw [update_contract_items_removal]
    exact refund_or_zero_of_ite _
  · intro hN hNM
    exact prorataRefund_full _ _ _ hN hNM hM hDI
  · intro hN
    rw [hN]
    exact prorataRefund_stored_zero _ _
  · intro hMN
    exact prorataRefund_bounds _ _ _ (by omega) hMN hDI

/-- C3 counterexample: a record with zero stored bytes but a recorded
byte deposit of 5; removing `M = 1 ≥ N = 0` net bytes yields no refund at
all (the pro-rata ratio divides by zero and defaults to zero), not the
full recorded deposit the claim demands. -/
theorem update_contract_refund_cap_cex :
    ((Diff.update_contract ⟨1, 1, 0⟩ ⟨0, 1, 0, 0⟩ (some ⟨0, 0, 5, 0, 0⟩)).1 =
      Deposit.Charge 0) ∧
    ((Diff.update_contract ⟨1, 1, 0⟩ ⟨0, 1, 0, 0⟩ (some ⟨0, 0, 5, 0, 0⟩)).1 ≠
      Deposit.Refund 5) := by
  constructor <;> decide

/-- C3 witness: removing 2 of 4 stored units with deposit 100 on each
dimension. -/
theorem update_contract_refund_cap_witness :
    (2 ≤ U32MAX) ∧ (100 ≤ U128MAX) ∧
    ((Diff.update_contract ⟨1, 1, 0⟩ ⟨0, 0 + 2, 0, 0⟩
        (some ⟨4, 0, 100, 0, 0⟩)).1.refund_or_zero = prorataRefund 2 4 100) :=
  ⟨by decide, by decide,
    (update_contract_refund_cap ⟨1, 1, 0⟩ 0 0 0 0 2 4 100 4 100
      ⟨4, 0, 100, 0, 0⟩ ⟨0, 4, 0, 100, 0⟩ rfl rfl rfl rfl
      (by decide) (by decide) (by decide)).2.1⟩

end StorageMeter
